import Mathlib

/-!
Verification development for the monsti/form library (file form.go).

The embedding models the reflect-based data containers the library
operates on as an inductive type of runtime values, and translates the
accessor (findNestedField), the coercion step (stringToValue with the
strconv parsers it calls), the form engine (Fill, validate, AddError,
RenderData) and the Required validator into executable Lean functions.
Go map iteration order is not fixed; wherever the original ranges over a
map (the field set of a form, the submitted values), the model takes an
explicit association list and folds it in list order, so one list stands
for one possible iteration order of the map.

Scope notes, recorded where they matter:
* nil interface values, slices, time types and TextUnmarshaler
  implementors are not modeled; none of the checked claims involve them;
* a Go panic is modeled as the error case of an Except value that
  propagates to the caller, while an ordinary error return is a value the
  caller inspects; the two are kept apart because Fill and setNestedField
  swallow error returns but a panic would abort them.
-/

set_option autoImplicit false

namespace GoForm

/-- The type information stringToValue inspects: reflect kinds, with the
pointer kind keeping its element kind (one level, as the code only ever
unwraps one level). -/
inductive TyKind where
  | tstr
  | tint
  | tbool
  | tptr : TyKind → TyKind
  | tstruct
  | tmap
  | tiface
deriving DecidableEq, Repr

/-- Runtime values held by a data container, mirroring the reflect
values traversed by findNestedField: strings, ints, bools, pointers
(carrying their element type so that a nil pointer still has a type),
structs and string-keyed maps as association lists, and interface
boxes. -/
inductive Val where
  | vstr : String → Val
  | vint : Int → Val
  | vbool : Bool → Val
  | vptr : TyKind → Option Val → Val
  | vstruct : List (String × Val) → Val
  | vmap : List (String × Val) → Val
  | viface : Val → Val

end GoForm

namespace GoForm

/-- The reflect kind of the type of a value, as used by findNestedField and by
setNestedField when it hands the old value type to stringToValue. -/
def tyOf : Val → TyKind
  | .vstr _ => .tstr
  | .vint _ => .tint
  | .vbool _ => .tbool
  | .vptr t _ => .tptr t
  | .vstruct _ => .tstruct
  | .vmap _ => .tmap
  | .viface _ => .tiface

/-- Whether a value is an interface box (kind Interface). -/
def isIface : Val → Bool
  | .viface _ => true
  | _ => false

/-- Failures of the Go code: an error return value, or a panic. -/
inductive GErr where
  | fieldErr : String → GErr
  | gopanic : String → GErr
deriving DecidableEq, Repr

/-- The first-match association-list lookup; models both a Go map read and
reflect FieldByName (which matches the exact, case-sensitive name). -/
def lookupA {α : Type} : List (String × α) → String → Option α
  | [], _ => none
  | (k2, v) :: rest, k => if k2 = k then some v else lookupA rest k

/-- The association-list update: replace the value at the key if present
(keeping the stored key), append the pair otherwise; models a Go map
assignment / reflect SetMapIndex, and the in-place update of a struct
field. -/
def updateA {α : Type} : List (String × α) → String → α → List (String × α)
  | [], k, v => [(k, v)]
  | (k2, v2) :: rest, k, v =>
    if k2 = k then (k2, v) :: rest else (k2, v2) :: updateA rest k v

/-- Go strconv lower(c): c with the 0x20 bit set. -/
def goLower (c : Char) : Char := Char.ofNat (c.toNat ||| 32)

/-- Digit value of a character in the strconv ParseUint digit loop. -/
def digitVal (c : Char) : Option Nat :=
  if ('0' ≤ c ∧ c ≤ '9') then some (c.toNat - 48)
  else if ('a' ≤ goLower c ∧ goLower c ≤ 'z') then some ((goLower c).toNat - 97 + 10)
  else none

/-- The ParseUint digit loop with base inference already done (base0 is
true since the library calls ParseInt with base argument 0, so
underscores are tolerated here and checked by underscoreOK afterwards).
Returns the accumulated value and whether an underscore was seen; none
on a syntax error. The value is kept unbounded: any overflow past the
uint64 range is turned into a range error by the caller via the int64
cutoff check, exactly as in the original, where the clamped maximum also
fails that check. -/
def digitsLoop (base : Nat) : List Char → Nat → Bool → Option (Nat × Bool)
  | [], n, saw => some (n, saw)
  | c :: rest, n, saw =>
    if c = '_' then digitsLoop base rest n true
    else
      match digitVal c with
      | none => none
      | some d => if base ≤ d then none else digitsLoop base rest (n * base + d) saw

/-- Inner loop of strconv underscoreOK. The saw argument is the class of
the previous character: circumflex for start of number, digit zero for a
digit or base prefix, underscore, or exclamation for anything else. -/
def uOKLoop (hex : Bool) : List Char → Char → Bool
  | [], saw => saw ≠ '_'
  | c :: rest, saw =>
    if (('0' ≤ c ∧ c ≤ '9') ∨ (hex ∧ 'a' ≤ goLower c ∧ goLower c ≤ 'f')) then
      uOKLoop hex rest '0'
    else if c = '_' then
      (if saw ≠ '0' then false else uOKLoop hex rest '_')
    else if saw = '_' then false
    else uOKLoop hex rest '!'

/-- strconv underscoreOK: underscores must separate digits of the number
proper. -/
def underscoreOK (cs : List Char) : Bool :=
  let cs1 := match cs with
    | c :: rest => if c = '-' ∨ c = '+' then rest else cs
    | [] => cs
  match cs1 with
  | '0' :: c1 :: rest =>
    if goLower c1 = 'b' ∨ goLower c1 = 'o' ∨ goLower c1 = 'x' then
      uOKLoop (goLower c1 = 'x') rest '0'
    else uOKLoop false cs1 '^'
  | _ => uOKLoop false cs1 '^'

/-- strconv ParseUint with base argument 0 (base inferred from the
prefix) on an already sign-stripped string; none on syntax error. -/
def parseUintGo (cs : List Char) : Option Nat :=
  match cs with
  | [] => none
  | _ =>
    let p := match cs with
      | '0' :: c1 :: c2 :: rest =>
        if goLower c1 = 'b' then (2, c2 :: rest)
        else if goLower c1 = 'o' then (8, c2 :: rest)
        else if goLower c1 = 'x' then (16, c2 :: rest)
        else (8, c1 :: c2 :: rest)
      | '0' :: rest => (8, rest)
      | _ => (10, cs)
    match digitsLoop p.1 p.2 0 false with
    | none => none
    | some (n, saw) => if saw ∧ ¬ underscoreOK cs then none else some n

/-- The strconv ParseInt function at base argument 0 and bit size 0: optional sign, base-inferred unsigned
part, and the int64 range check (bitSize 0 resolves to 64). none on any
syntax or range error. -/
def parseIntGo (s : String) : Option Int :=
  match s.toList with
  | [] => none
  | c :: rest =>
    let neg := c = '-'
    let digits := if c = '-' ∨ c = '+' then rest else c :: rest
    match parseUintGo digits with
    | none => none
    | some n =>
      if ¬neg ∧ 2 ^ 63 ≤ n then none
      else if neg ∧ 2 ^ 63 < n then none
      else some (if neg then -(n : Int) else (n : Int))

/-- The strconv ParseBool function: exactly twelve accepted literals, anything else
is an error. -/
def parseBoolGo (s : String) : Option Bool :=
  if s = "1" ∨ s = "t" ∨ s = "T" ∨ s = "true" ∨ s = "TRUE" ∨ s = "True" then some true
  else if s = "0" ∨ s = "f" ∨ s = "F" ∨ s = "false" ∨ s = "FALSE" ∨ s = "False" then some false
  else none

/-- The stringToValue coercion: converts a submitted string to a value of the given
target type. No modeled type implements TextUnmarshaler, so that branch
is absent. One level of pointer indirection is stripped, then the kind
dispatch: strings pass through; integers are parsed with ParseInt and
the error is swallowed into 0; booleans are parsed with ParseBool and
the error is swallowed into false; any other kind panics. -/
def stringToValue (src : String) (target : TyKind) : Except GErr Val :=
  let t := match target with
    | .tptr e => e
    | _ => target
  match t with
  | .tstr => .ok (.vstr src)
  | .tint => .ok (.vint ((parseIntGo src).getD 0))
  | .tbool => .ok (.vbool ((parseBoolGo src).getD false))
  | _ => .error (.gopanic ("form: Unknown field kind"))

/-- The split of a field path on dots (strings Split), as used by findNestedField: the maximal
dot-free substrings, in order, including empty ones. -/
def splitDot : List Char → List Char → List String
  | [], cur => [String.mk cur.reverse]
  | c :: rest, cur =>
    if c = '.' then String.mk cur.reverse :: splitDot rest []
    else splitDot rest (c :: cur)

/-- A dotted field path split into its segments. -/
def splitPath (s : String) : List String := splitDot s.toList []

/-- The pointer-and-interface unwrapping steps of the findNestedField
loop: while the current node is a pointer or an interface box, it is
dereferenced without consuming a path segment (Elem of a pointer is
addressable, Elem of an interface is not; Elem of a nil pointer is the
zero reflect.Value, on which the next Type call panics). Returns the
first non-pointer non-interface node, its addressability, and the
function that wraps an updated core node back into the chain (the
original mutates through the chain in place). -/
def unwrapChain : Val → Bool → Except GErr (Val × Bool × (Val → Val))
  | .vptr t (some inner), _ =>
    match unwrapChain inner true with
    | .ok (core, a2, rb) => .ok (core, a2, fun x => .vptr t (some (rb x)))
    | .error e => .error e
  | .vptr _ none, _ =>
    .error (.gopanic ("reflect: call of Type on zero Value"))
  | .viface w, _ =>
    match unwrapChain w false with
    | .ok (core, a2, rb) => .ok (core, a2, fun x => .viface (rb x))
    | .error e => .error e
  | v, addr => .ok (v, addr, fun x => x)

/-- What findNestedField does once the segment list is exhausted: with
nothing to store, an interface result is unwrapped one level and the
value returned; with a value to store, reflect Set panics unless the
slot is addressable, a pointer slot gets fresh storage for the value,
an interface slot has its boxed value replaced, any other slot is
overwritten, and the stored slot is then returned (unwrapped when its
kind is interface). -/
def afterLoop : Val → Bool → Option Val → Except GErr (Option Val × Val)
  | v, _, none =>
    match v with
    | .viface w => .ok (some w, v)
    | _ => .ok (some v, v)
  | v, addr, some sv =>
    if addr then
      let v2 := match v with
        | .vptr t _ => Val.vptr t (some sv)
        | .viface _ => Val.viface sv
        | _ => sv
      match v2 with
      | .viface w => .ok (some w, v2)
      | _ => .ok (some v2, v2)
    else .error (.gopanic ("reflect: Value.Set using unaddressable value"))

/-- findNestedField, working on the value tree instead of through
reflect. The arguments are the remaining path segments, the current
node, whether the node is addressable, and the optional value to store
into the final slot. The result pairs the value the original returns
(none exactly where it returns the zero reflect.Value, after a map
store) with the updated node; since the original mutates the container
in place, every rebuilt ancestor is threaded back up. Each loop
iteration first unwraps pointers and interface boxes without consuming
a segment, then: a struct node resolves the segment with FieldByName
(exact, case-sensitive match, missing field is an error); a map node
stores at the final segment when a value is present, otherwise indexes
(missing key is an error); any other kind with segments remaining is an
error. -/
def findParts : List String → Val → Bool → Option Val → Except GErr (Option Val × Val)
  | [], v, addr, sv => afterLoop v addr sv
  | p :: rest, v, addr, sv =>
    match unwrapChain v addr with
    | .error e => .error e
    | .ok (core, addr2, rb) =>
      match core with
      | .vstruct fields =>
        match lookupA fields p with
        | none => .error (.fieldErr ("form: Invalid field in data"))
        | some fv =>
          match findParts rest fv addr2 sv with
          | .ok (res, fv2) => .ok (res, rb (.vstruct (updateA fields p fv2)))
          | .error e => .error e
      | .vmap entries =>
        match rest, sv with
        | [], some sv0 => .ok (none, rb (.vmap (updateA entries p sv0)))
        | rest2, sv2 =>
          match lookupA entries p with
          | none => .error (.fieldErr ("form: Invalid field in data"))
          | some ev =>
            match findParts rest2 ev false sv2 with
            | .ok (res, ev2) => .ok (res, rb (.vmap (updateA entries p ev2)))
            | .error e => .error e
      | _ => .error (.fieldErr ("form: Cannot find field in data"))

/-- The widgets of form.go that the claims touch, as a closed type (the
Go side is an interface). The file constructor stands for the pointer
form new(FileWidget), the only way the library and its tests create it,
which is also the shape the multipart check asserts on. -/
inductive Widget where
  | text
  | file
  | hidden
  | password
deriving DecidableEq, Repr

/-- The escaping of one character, per html EscapeString. -/
def escapeChar (c : Char) : String :=
  if c = '&' then ("&amp;")
  else if c.toNat = 39 then ("&#39;")
  else if c = '<' then ("&lt;")
  else if c = '>' then ("&gt;")
  else if c.toNat = 34 then ("&#34;")
  else String.singleton c

/-- The html EscapeString function. -/
def escapeHTML (s : String) : String := String.join (s.toList.map escapeChar)

/-- fmt %v of the value handed to a widget. Pointer, struct, map and
interface renderings are placeholders: a pointer prints its machine
address in Go, which has no counterpart here; no checked claim renders
such a value. -/
def formatVal : Val → String
  | .vstr s => s
  | .vint n => toString n
  | .vbool b => if b then ("true") else ("false")
  | .vptr _ _ => "0x0"
  | .vstruct _ => "\x7b\x7d"
  | .vmap _ => "map[]"
  | .viface w => formatVal w

/-- The HTML method of the modeled widgets, following the Sprintf templates
in form.go (only the text widget escapes its value; hidden does not). -/
def widgetHTML : Widget → String → Val → String
  | .text, field, value =>
    "<input id=\"" ++ field ++ "\" type=\"text\" name=\"" ++ field ++
      "\" value=\"" ++ escapeHTML (formatVal value) ++ "\"/>"
  | .file, field, _ =>
    "<input id=\"" ++ field ++ "\" type=\"file\" name=\"" ++ field ++ "\"/>"
  | .hidden, field, value =>
    "<input id=\"" ++ field ++ "\" type=\"hidden\" name=\"" ++ field ++
      "\" value=\"" ++ formatVal value ++ "\"/>"
  | .password, field, _ =>
    "<input id=\"" ++ field ++ "\" type=\"password\" name=\"" ++ field ++ "\"/>"

/-- A validator: Go Validator func(interface value) []string, with none
for a nil result slice and some for a non-nil one (the engine tests the
slice against nil, so the distinction is observable). -/
def GoValidator : Type := Val → Option (List String)

/-- Field settings: label, help, optional validator, optional widget. -/
structure Field where
  label : String
  help : String
  validator : Option GoValidator
  widget : Option Widget

/-- The form: field settings keyed by name, the data container, the
error map, and the action attribute. Fields and errors are Go maps; the
association lists here carry one iteration order of each. -/
structure Form where
  fields : List (String × Field)
  data : Val
  errors : List (String × List String)
  action : String

/-- The NewForm constructor: panics unless the container is a pointer to a struct or a
map; starts with an empty error map. -/
def NewForm (data : Val) (fields : List (String × Field)) : Except GErr Form :=
  match data with
  | .vptr .tstruct _ => .ok ⟨fields, data, [], ""⟩
  | .vmap _ => .ok ⟨fields, data, [], ""⟩
  | _ => .error (.gopanic ("NewForm expects a map or a pointer to a struct"))

/-- The getNestedField read access; the root reflect.ValueOf(f.data) is not
addressable itself. -/
def getNestedField (f : Form) (field : String) : Except GErr (Option Val × Val) :=
  findParts (splitPath field) f.data false none

/-- The value of a successful read (reads always produce a value; see
getNestedField_read). -/
def readField (f : Form) (field : String) : Except GErr Val :=
  match getNestedField f field with
  | .ok (some v, _) => .ok v
  | .ok (none, _) => .error (.fieldErr ("unreachable: read returned no value"))
  | .error e => .error e

mutual

/-- Go Required(msg) tests the value against the zero value of its own
type. Struct zero-ness is field-wise; Go panics on uncomparable kinds
(maps), which no checked claim exercises, so the map branch is never
relied on. -/
def isZeroVal : Val → Bool
  | .vstr s => s = ""
  | .vint n => n = 0
  | .vbool b => b = false
  | .vptr _ w => w.isNone
  | .vstruct l => isZeroFields l
  | .vmap _ => false
  | .viface w => isZeroVal w

def isZeroFields : List (String × Val) → Bool
  | [] => true
  | (_, v) :: rest => isZeroVal v && isZeroFields rest

end

/-- The Required validator. -/
def Required (msg : String) : GoValidator :=
  fun v => if isZeroVal v then some [msg] else none

/-- The AddError operation: append to the error list of the field (empty name for the
whole form), creating the entry first if absent. -/
def addError (f : Form) (field : String) (msg : String) : Form :=
  let cur := (lookupA f.errors field).getD []
  { f with errors := updateA f.errors field (cur ++ [msg]) }

/-- The setNestedField operation: resolve the field once to learn its current type,
coerce the submitted string to that type, and write the result. An
error return from either traversal is silently dropped (and both
traversals only mutate after the last possible error point, so a
dropped error leaves the container as it was); a panic propagates. -/
def setNestedField (f : Form) (field : String) (value : String) : Except GErr Form :=
  match findParts (splitPath field) f.data false none with
  | .error (.gopanic p) => .error (.gopanic p)
  | .error (.fieldErr _) => .ok f
  | .ok (ov, d1) =>
    match stringToValue value (tyOf (ov.getD (.vstr ("")))) with
    | .error e => .error e
    | .ok sv =>
      match findParts (splitPath field) d1 false (some sv) with
      | .error (.gopanic p) => .error (.gopanic p)
      | .error (.fieldErr _) => .ok { f with data := d1 }
      | .ok (_, d2) => .ok { f with data := d2 }

/-- The loop body of validate over the declared fields, carrying the
anyError flag. A resolution error returns false at once, keeping the
errors recorded so far; a validator returning a non-nil slice is stored
under the field name (overwriting that entry only) and flags the pass. -/
def validateLoop : Form → List (String × Field) → Bool → Except GErr (Bool × Form)
  | f, [], anyError => .ok (!anyError, f)
  | f, (name, fld) :: rest, anyError =>
    match findParts (splitPath name) f.data false none with
    | .error (.gopanic p) => .error (.gopanic p)
    | .error (.fieldErr _) => .ok (false, f)
    | .ok (ov, d2) =>
      let f2 := { f with data := d2 }
      let value := ov.getD (.vstr (""))
      match fld.validator with
      | none => validateLoop f2 rest anyError
      | some vd =>
        match vd value with
        | none => validateLoop f2 rest anyError
        | some errs =>
          validateLoop { f2 with errors := updateA f2.errors name errs } rest true

/-- The validate pass: run every declared validator against the current data;
never clears previously recorded errors. -/
def validate (f : Form) : Except GErr (Bool × Form) :=
  validateLoop f f.fields false

/-- The inner loop of Fill: store every submitted string for one
parameter. -/
def fillValuesLoop : Form → String → List String → Except GErr Form
  | f, _, [] => .ok f
  | f, param, v :: rest =>
    match setNestedField f param v with
    | .error e => .error e
    | .ok f2 => fillValuesLoop f2 param rest

/-- The outer loop of Fill over the submitted values. A parameter that
is not a declared field is ignored; a parameter whose field does not
resolve is silently skipped (continue); otherwise each submitted string
is written. The resolved field type is computed by the original at this
point but never used afterwards. -/
def fillLoop : Form → List (String × List String) → Except GErr Form
  | f, [] => .ok f
  | f, (param, pvals) :: rest =>
    if (lookupA f.fields param).isSome then
      match findParts (splitPath param) f.data false none with
      | .error (.gopanic p) => .error (.gopanic p)
      | .error (.fieldErr _) => fillLoop f rest
      | .ok (_, d2) =>
        match fillValuesLoop { f with data := d2 } param pvals with
        | .error e => .error e
        | .ok f2 => fillLoop f2 rest
    else fillLoop f rest

/-- The Fill operation: write the submitted values, then validate. The submitted
values are a Go map iterated in unspecified order; the list argument is
one such order. -/
def fill (f : Form) (values : List (String × List String)) : Except GErr (Bool × Form) :=
  match fillLoop f values with
  | .error e => .error e
  | .ok f2 => validate f2

/-- One rendered field of the snapshot. -/
structure FieldRenderData where
  label : String
  labelTag : String
  input : String
  help : String
  errors : Option (List String)
deriving DecidableEq, Repr

/-- The render snapshot. -/
structure RenderData where
  fields : List FieldRenderData
  errors : Option (List String)
  encTypeAttr : String
  action : String
deriving DecidableEq, Repr

/-- The multipart marker RenderData sets when it meets a file widget. -/
def multipartMarker : String := "enctype=\"multipart/form-data\""

/-- The loop of RenderData over the declared fields: a nil widget falls
back to the text widget, a file widget switches the enctype attribute,
a value that fails to resolve degrades to the empty string, and the
per-field errors are looked up in the error map. The container is
threaded through the reads exactly as the shared Go container would be.
The field list is one iteration order of the Go field map. -/
def renderLoop : Val → List (String × List String) → List (String × Field) → String →
    Except GErr (List FieldRenderData × String × Val)
  | d, _, [], enc => .ok ([], enc, d)
  | d, errs, (name, fld) :: rest, enc =>
    let widget := fld.widget.getD .text
    let enc2 := if fld.widget = some Widget.file then multipartMarker else enc
    match findParts (splitPath name) d false none with
    | .error (.gopanic p) => .error (.gopanic p)
    | hres =>
      let value := match hres with
        | .ok (some v, _) => v
        | _ => Val.vstr ("")
      let d2 := match hres with
        | .ok (_, dd) => dd
        | _ => d
      let frd : FieldRenderData :=
        { label := fld.label
          labelTag := "<label for=\"" ++ name ++ "\">" ++ fld.label ++ "</label>"
          input := widgetHTML widget name value
          help := fld.help
          errors := lookupA errs name }
      match renderLoop d2 errs rest enc2 with
      | .error e => .error e
      | .ok (lst, encF, dF) => .ok (frd :: lst, encF, dF)

/-- RenderData, with the form it leaves behind (the Go method mutates
nothing, which is what claim C10 checks; the model returns the threaded
state so that this is a theorem rather than a convention). -/
def renderData (f : Form) : Except GErr (RenderData × Form) :=
  match renderLoop f.data f.errors f.fields ("") with
  | .error e => .error e
  | .ok (lst, enc, dF) =>
    .ok ({ fields := lst, errors := lookupA f.errors (""), encTypeAttr := enc,
           action := f.action },
         { f with data := dF })

/-- Updating a key with the value it already holds is the identity. -/
theorem updateA_lookup_self {α : Type} :
    ∀ (l : List (String × α)) (k : String) (v : α),
      lookupA l k = some v → updateA l k v = l
  | [], k, v, h => by simp [lookupA] at h
  | (k2, v2) :: rest, k, v, h => by
    by_cases hk : k2 = k
    · simp only [lookupA, hk, if_true] at h
      cases h
      simp [updateA, hk]
    · simp only [lookupA, hk, if_false] at h
      simp [updateA, hk, updateA_lookup_self rest k v h]

/-- Looking up the key just stored finds the stored value. -/
theorem lookupA_updateA_self {α : Type} :
    ∀ (l : List (String × α)) (k : String) (v : α),
      lookupA (updateA l k v) k = some v
  | [], k, v => by simp [updateA, lookupA]
  | (k2, v2) :: rest, k, v => by
    by_cases hk : k2 = k
    · simp [updateA, lookupA, hk]
    · simp [updateA, lookupA, hk, lookupA_updateA_self rest k v]

/-- Storing a key leaves every other key unchanged. -/
theorem lookupA_updateA_other {α : Type} :
    ∀ (l : List (String × α)) (k k2 : String) (v : α), k2 ≠ k →
      lookupA (updateA l k v) k2 = lookupA l k2
  | [], k, k2, v, hne => by
    simp only [updateA, lookupA]
    rw [if_neg (fun h => hne h.symm)]
  | (k3, v3) :: rest, k, k2, v, hne => by
    by_cases hk : k3 = k
    · subst hk
      simp [updateA, lookupA, Ne.symm hne]
    · simp only [updateA, hk, if_false, lookupA]
      by_cases h2 : k3 = k2
      · simp [h2]
      · simp [h2, lookupA_updateA_other rest k k2 v hne]

/-- Rebuilding the unwrapped core gives back the original node. -/
theorem unwrapChain_rebuild :
    ∀ (v : Val) (addr : Bool) (core : Val) (a2 : Bool) (rb : Val → Val),
      unwrapChain v addr = .ok (core, a2, rb) → rb core = v
  | .vptr t (some inner), addr, core, a2, rb, h => by
    simp only [unwrapChain] at h
    cases hx : unwrapChain inner true with
    | error e => rw [hx] at h; cases h
    | ok tri =>
      obtain ⟨c2, aa, rb2⟩ := tri
      rw [hx] at h
      simp only [Except.ok.injEq, Prod.mk.injEq] at h
      obtain ⟨h1, h2, h3⟩ := h
      subst h1
      subst h2
      subst h3
      simp [unwrapChain_rebuild inner true c2 aa rb2 hx]
  | .vptr t none, addr, core, a2, rb, h => by simp [unwrapChain] at h
  | .viface w, addr, core, a2, rb, h => by
    simp only [unwrapChain] at h
    cases hx : unwrapChain w false with
    | error e => rw [hx] at h; cases h
    | ok tri =>
      obtain ⟨c2, aa, rb2⟩ := tri
      rw [hx] at h
      simp only [Except.ok.injEq, Prod.mk.injEq] at h
      obtain ⟨h1, h2, h3⟩ := h
      subst h1
      subst h2
      subst h3
      simp [unwrapChain_rebuild w false c2 aa rb2 hx]
  | .vstr s, addr, core, a2, rb, h => by
    simp only [unwrapChain, Except.ok.injEq, Prod.mk.injEq] at h
    obtain ⟨h1, h2, h3⟩ := h
    subst h1
    subst h3
    rfl
  | .vint n, addr, core, a2, rb, h => by
    simp only [unwrapChain, Except.ok.injEq, Prod.mk.injEq] at h
    obtain ⟨h1, h2, h3⟩ := h
    subst h1
    subst h3
    rfl
  | .vbool b, addr, core, a2, rb, h => by
    simp only [unwrapChain, Except.ok.injEq, Prod.mk.injEq] at h
    obtain ⟨h1, h2, h3⟩ := h
    subst h1
    subst h3
    rfl
  | .vstruct l, addr, core, a2, rb, h => by
    simp only [unwrapChain, Except.ok.injEq, Prod.mk.injEq] at h
    obtain ⟨h1, h2, h3⟩ := h
    subst h1
    subst h3
    rfl
  | .vmap l, addr, core, a2, rb, h => by
    simp only [unwrapChain, Except.ok.injEq, Prod.mk.injEq] at h
    obtain ⟨h1, h2, h3⟩ := h
    subst h1
    subst h3
    rfl

/-- A read traversal (no value to store) leaves the container unchanged
and always produces a value: the only arm of findNestedField that
returns without one is the map store. -/
theorem findParts_read :
    ∀ (ps : List String) (v : Val) (addr : Bool) (res : Option Val) (v2 : Val),
      findParts ps v addr none = .ok (res, v2) → v2 = v ∧ res.isSome
  | [], v, addr, res, v2, h => by
    simp only [findParts, afterLoop] at h
    split at h <;>
      simp only [Except.ok.injEq, Prod.mk.injEq] at h <;>
      exact ⟨h.2.symm, h.1 ▸ rfl⟩
  | p :: rest, v, addr, res, v2, h => by
    simp only [findParts] at h
    cases hx : unwrapChain v addr with
    | error e => rw [hx] at h; cases h
    | ok tri =>
      obtain ⟨core, addr2, rb⟩ := tri
      have hrb := unwrapChain_rebuild v addr core addr2 rb hx
      rw [hx] at h
      cases core with
      | vstruct fields =>
        cases hl : lookupA fields p with
        | none => simp [hl] at h
        | some fv =>
          cases hf : findParts rest fv addr2 none with
          | error e => simp [hl, hf] at h
          | ok pr =>
            obtain ⟨res3, fv2⟩ := pr
            obtain ⟨ih1, ih2⟩ := findParts_read rest fv addr2 res3 fv2 hf
            simp only [hl, hf, Except.ok.injEq, Prod.mk.injEq] at h
            obtain ⟨h1, h2⟩ := h
            subst h1
            subst ih1
            rw [updateA_lookup_self fields p fv2 hl] at h2
            exact ⟨h2 ▸ hrb ▸ rfl, ih2⟩
      | vmap entries =>
        cases hl : lookupA entries p with
        | none => simp [hl] at h
        | some ev =>
          cases hf : findParts rest ev false none with
          | error e => simp [hl, hf] at h
          | ok pr =>
            obtain ⟨res3, ev2⟩ := pr
            obtain ⟨ih1, ih2⟩ := findParts_read rest ev false res3 ev2 hf
            simp only [hl, hf, Except.ok.injEq, Prod.mk.injEq] at h
            obtain ⟨h1, h2⟩ := h
            subst h1
            subst ih1
            rw [updateA_lookup_self entries p ev2 hl] at h2
            exact ⟨h2 ▸ hrb ▸ rfl, ih2⟩
      | vstr s => simp at h
      | vint n => simp at h
      | vbool b => simp at h
      | vptr t w => simp at h
      | viface w => simp at h

/-- Form-level reading does not change the container and yields a
value. -/
theorem getNestedField_read (f : Form) (field : String) (res : Option Val) (d2 : Val)
    (h : getNestedField f field = .ok (res, d2)) : d2 = f.data ∧ res.isSome :=
  findParts_read (splitPath field) f.data false res d2 h

/-! ## Claim C1 -/

/-- A form over a struct with one int field Age currently 5, declared
with no validator, as in the integer-coercion scenario. -/
def c1form : Form :=
  { fields := [("Age", ⟨"Your age", "Years since your birth.", none, none⟩)]
    data := .vptr .tstruct (some (.vstruct [("Age", .vint 5)]))
    errors := []
    action := "" }

/-- The submitted values of the scenario: a string that is not a number
for the integer field. -/
def c1vals : List (String × List String) := [("Age", ["not-a-number"])]

/-- Claim C1, behavior of the code at the failing input: the submitted
string fails integer parsing, yet Fill stores the integer 0 into the
container (overwriting the previous 5), records no error for Age (the
error map of the resulting form is the unchanged empty one), and
returns true — it does not report a field-level error and return false
as the claim requires. -/
theorem c1_fill_stores_zero_without_error :
    parseIntGo ("not-a-number") = none ∧
    fill c1form c1vals =
      .ok (true, { c1form with data := .vptr .tstruct (some (.vstruct [("Age", .vint 0)])) }) ∧
    c1form.errors = [] :=
  ⟨rfl, rfl, rfl⟩

/-! ## Claim C2 -/

/-- A form over a struct with a field literally named Age. -/
def c2form : Form :=
  { fields := [("Age", ⟨"Your age", "", none, none⟩)]
    data := .vptr .tstruct (some (.vstruct [("Age", .vint 14)]))
    errors := []
    action := "" }

/-- Claim C2, counterexample: on a container with a struct field
literally named Age, resolving the segment spelled AGE does not find
the field — it is a resolution error — while the exactly spelled Age
resolves; matching at the record node is not case-insensitive. -/
theorem c2_counterexample :
    readField c2form ("AGE") = .error (.fieldErr ("form: Invalid field in data")) ∧
    readField c2form ("Age") = .ok (.vint 14) :=
  ⟨rfl, rfl⟩

/-- Claim C2 (corrected): at a structured-record node the current
segment is matched against the field names exactly (case-sensitively,
first match wins): when no field bears exactly the segment name the
resolution fails with the field error, and when one does, reading
returns its value and leaves the record unchanged. -/
theorem c2_struct_match_exact (flds : List (String × Val)) (seg : String) (a : Bool) :
    (lookupA flds seg = none →
      findParts [seg] (Val.vstruct flds) a none =
        .error (.fieldErr ("form: Invalid field in data"))) ∧
    (∀ v, lookupA flds seg = some v → isIface v = false →
      findParts [seg] (Val.vstruct flds) a none = .ok (some v, Val.vstruct flds)) := by
  constructor
  · intro h
    simp [findParts, unwrapChain, h]
  · intro v h hni
    cases v <;>
      simp_all [findParts, unwrapChain, afterLoop, isIface, updateA_lookup_self]

/-- Witness for c2_struct_match_exact at the container of c2form: the
segment AGE is not a field name (its lookup fails and resolution
errors), while Age is (its lookup succeeds and resolution returns 14). -/
theorem c2_struct_match_exact_witness :
    findParts [("AGE")] (Val.vstruct [("Age", Val.vint 14)]) true none =
      .error (.fieldErr ("form: Invalid field in data")) ∧
    findParts [("Age")] (Val.vstruct [("Age", Val.vint 14)]) true none =
      .ok (some (Val.vint 14), Val.vstruct [("Age", Val.vint 14)]) :=
  ⟨(c2_struct_match_exact [("Age", Val.vint 14)] ("AGE") true).1 rfl,
   (c2_struct_match_exact [("Age", Val.vint 14)] ("Age") true).2 (Val.vint 14) rfl rfl⟩

/-! ## Claim C5 -/

/-- A form declaring a field Missing that the container (a struct with
only a Name field) does not have. -/
def c5form : Form :=
  { fields := [("Missing", ⟨"Missing", "", none, none⟩)]
    data := .vptr .tstruct (some (.vstruct [("Name", .vstr (""))]))
    errors := []
    action := "" }

/-- Claim C5, behavior of the code at the failing input: filling a form
whose declared field does not resolve against the container neither
panics nor aborts — the write is silently skipped (continue) and
validate merely returns false, so Fill completes normally with an
ordinary false result and the form (container and error map) entirely
unchanged, indistinguishable from a plain validation failure. -/
theorem c5_unresolved_field_is_skipped_not_fatal :
    fill c5form [("Missing", ["x"])] = .ok (false, c5form) ∧
    lookupA [("Name", Val.vstr (""))] ("Missing") = none :=
  ⟨rfl, rfl⟩

/-! ## Claim C6 -/

/-- Claim C6, counterexample: the non-empty submitted string spelled
false coerces to the boolean false, not true as the claim (any
non-empty string means true) requires. -/
theorem c6_counterexample :
    stringToValue ("false") TyKind.tbool = .ok (.vbool false) ∧
    ("false" : String) ≠ "" :=
  ⟨rfl, by decide⟩

/-- Claim C6 (corrected): coercion to a boolean destination parses the
source with ParseBool and swallows the parse error into false: exactly
the six true literals of ParseBool coerce to true, and every other
string — the six false literals, the empty string, and anything
unparsable — coerces to false. -/
theorem c6_bool_coercion_is_parsebool (s : String) :
    stringToValue s TyKind.tbool = .ok (.vbool ((parseBoolGo s).getD false)) ∧
    ((parseBoolGo s).getD false = true ↔
      s = "1" ∨ s = "t" ∨ s = "T" ∨ s = "true" ∨ s = "TRUE" ∨ s = "True") := by
  constructor
  · rfl
  · unfold parseBoolGo
    by_cases h1 : s = "1" ∨ s = "t" ∨ s = "T" ∨ s = "true" ∨ s = "TRUE" ∨ s = "True"
    · simp [h1]
    · rw [if_neg h1]
      by_cases h2 : s = "0" ∨ s = "f" ∨ s = "F" ∨ s = "false" ∨ s = "FALSE" ∨ s = "False"
      · simp [h2, h1]
      · simp [h2, h1]

/-! ## Claim C3 -/

/-- Record eta: rewriting the data field with itself is the identity. -/
theorem form_eta (f : Form) : { f with data := f.data } = f := rfl

/-- setNestedField only ever changes the data container. -/
theorem setNestedField_frame (f : Form) (p v : String) (f2 : Form)
    (h : setNestedField f p v = .ok f2) :
    f2.fields = f.fields ∧ f2.errors = f.errors ∧ f2.action = f.action := by
  unfold setNestedField at h
  repeat' split at h
  all_goals simp only [Except.ok.injEq, reduceCtorEq] at h
  all_goals subst h
  all_goals exact ⟨rfl, rfl, rfl⟩

/-- The inner Fill loop only ever changes the data container. -/
theorem fillValuesLoop_frame :
    ∀ (vs : List String) (f : Form) (p : String) (f2 : Form),
      fillValuesLoop f p vs = .ok f2 →
      f2.fields = f.fields ∧ f2.errors = f.errors ∧ f2.action = f.action
  | [], f, p, f2, h => by
    simp only [fillValuesLoop, Except.ok.injEq] at h
    subst h
    exact ⟨rfl, rfl, rfl⟩
  | v :: rest, f, p, f2, h => by
    simp only [fillValuesLoop] at h
    cases hs : setNestedField f p v with
    | error e => rw [hs] at h; cases h
    | ok fmid =>
      rw [hs] at h
      obtain ⟨a1, a2, a3⟩ := setNestedField_frame f p v fmid hs
      obtain ⟨b1, b2, b3⟩ := fillValuesLoop_frame rest fmid p f2 h
      exact ⟨b1.trans a1, b2.trans a2, b3.trans a3⟩

/-- The outer Fill loop only ever changes the data container. -/
theorem fillLoop_frame :
    ∀ (vals : List (String × List String)) (f : Form) (f2 : Form),
      fillLoop f vals = .ok f2 →
      f2.fields = f.fields ∧ f2.errors = f.errors ∧ f2.action = f.action
  | [], f, f2, h => by
    simp only [fillLoop, Except.ok.injEq] at h
    subst h
    exact ⟨rfl, rfl, rfl⟩
  | (param, pvals) :: rest, f, f2, h => by
    simp only [fillLoop] at h
    by_cases hm : (lookupA f.fields param).isSome
    · rw [if_pos hm] at h
      cases hg : findParts (splitPath param) f.data false none with
      | error e =>
        cases e with
        | gopanic p2 => rw [hg] at h; simp at h
        | fieldErr s => rw [hg] at h; simp only [] at h; exact fillLoop_frame rest f f2 h
      | ok pr =>
        obtain ⟨ov, d2⟩ := pr
        rw [hg] at h
        simp only [] at h
        cases hf : fillValuesLoop { f with data := d2 } param pvals with
        | error e => rw [hf] at h; simp at h
        | ok fmid =>
          rw [hf] at h
          simp only [] at h
          obtain ⟨a1, a2, a3⟩ := fillValuesLoop_frame pvals { f with data := d2 } param fmid hf
          obtain ⟨b1, b2, b3⟩ := fillLoop_frame rest fmid f2 h
          exact ⟨b1.trans a1, b2.trans a2, b3.trans a3⟩
    · rw [if_neg hm] at h
      exact fillLoop_frame rest f f2 h

/-- validate never removes an entry from the error map: every key with
an entry before the pass still has one after it. -/
theorem validateLoop_errors_mono :
    ∀ (fs : List (String × Field)) (f : Form) (anyE b : Bool) (f2 : Form),
      validateLoop f fs anyE = .ok (b, f2) →
      ∀ nm, (lookupA f.errors nm).isSome → (lookupA f2.errors nm).isSome
  | [], f, anyE, b, f2, h, nm, hs => by
    simp only [validateLoop, Except.ok.injEq, Prod.mk.injEq] at h
    rw [← h.2]
    exact hs
  | (name, fld) :: rest, f, anyE, b, f2, h, nm, hs => by
    simp only [validateLoop] at h
    cases hg : findParts (splitPath name) f.data false none with
    | error e =>
      cases e with
      | gopanic p2 => rw [hg] at h; simp at h
      | fieldErr s =>
        rw [hg] at h
        simp only [Except.ok.injEq, Prod.mk.injEq] at h
        rw [← h.2]
        exact hs
    | ok pr =>
      obtain ⟨ov, d2⟩ := pr
      rw [hg] at h
      simp only [] at h
      split at h
      · exact validateLoop_errors_mono rest _ anyE b f2 h nm hs
      · split at h
        · exact validateLoop_errors_mono rest _ anyE b f2 h nm hs
        · rename_i vd hv errs hvv
          refine validateLoop_errors_mono rest _ true b f2 h nm ?_
          show (lookupA (updateA f.errors name errs) nm).isSome
          by_cases hnm : nm = name
          · subst hnm
            rw [lookupA_updateA_self]
            rfl
          · rw [lookupA_updateA_other f.errors name nm errs hnm]
            exact hs

/-- A form with one Required field Name, currently empty. -/
def c3form : Form :=
  { fields := [("Name", ⟨"Your name", "Your full name", some (Required ("Req!")), none⟩)]
    data := .vptr .tstruct (some (.vstruct [("Name", .vstr (""))]))
    errors := []
    action := "" }

/-- Claim C3, counterexample: a first Fill with an empty Name records
the Required error; a second Fill with a non-empty Name then succeeds —
the pass produces no errors and returns true — yet the error map still
contains the entry of the earlier pass, so the map does not hold
exactly the errors of the last pass. -/
theorem c3_counterexample :
    (fill c3form [("Name", [""])]).toOption.map (fun pr => (pr.1, pr.2.errors)) =
      some (false, [("Name", ["Req!"])]) ∧
    (match fill c3form [("Name", [""])] with
     | .ok (_, fmid) =>
       (fill fmid [("Name", ["Foo"])]).toOption.map (fun pr => (pr.1, pr.2.errors))
     | .error _ => none) = some (true, [("Name", ["Req!"])]) :=
  ⟨rfl, rfl⟩

/-- Claim C3 (corrected): Fill never resets the error map — validation
only inserts or overwrites entries for fields whose validators fail in
the current pass, so every field that had an error entry before the
call still has one afterwards (stale entries persist instead of the map
being recomputed from scratch). -/
theorem c3_fill_never_clears_errors (f : Form) (vals : List (String × List String))
    (b : Bool) (f2 : Form) (h : fill f vals = .ok (b, f2)) (nm : String)
    (hs : (lookupA f.errors nm).isSome) : (lookupA f2.errors nm).isSome := by
  unfold fill at h
  cases hl : fillLoop f vals with
  | error e => rw [hl] at h; cases h
  | ok fmid =>
    rw [hl] at h
    obtain ⟨e1, e2, e3⟩ := fillLoop_frame vals f fmid hl
    refine validateLoop_errors_mono fmid.fields fmid false b f2 h nm ?_
    rw [e2]
    exact hs

/-- A form carrying a pre-existing error entry for Name and declaring a
validator-free field. -/
def c3wform : Form :=
  { fields := [("Name", ⟨"Your name", "", none, none⟩)]
    data := .vptr .tstruct (some (.vstruct [("Name", .vstr (""))]))
    errors := [("Name", ["Old"])]
    action := "" }

/-- Witness for c3_fill_never_clears_errors: a Fill over a form with an
existing Name entry keeps that entry. -/
theorem c3_fill_never_clears_errors_witness :
    (lookupA c3wform.errors ("Name")).isSome = true ∧
    (lookupA ((⟨c3wform.fields, c3wform.data, c3wform.errors, c3wform.action⟩ :
        Form)).errors ("Name")).isSome = true :=
  ⟨rfl, c3_fill_never_clears_errors c3wform [] true
    ⟨c3wform.fields, c3wform.data, c3wform.errors, c3wform.action⟩ rfl ("Name") rfl⟩

/-! ## Claim C4 -/

/-- The value a dotted path currently addresses in a container, if the
path resolves. -/
def readData (d : Val) (nm : String) : Option Val :=
  match findParts (splitPath nm) d false none with
  | .ok (some v, _) => some v
  | _ => none

/-- Every declared validator returns the nil slice on the value its
field currently addresses. -/
def allPass (fs : List (String × Field)) (d : Val) : Prop :=
  ∀ nm fld, (nm, fld) ∈ fs → ∀ vd, fld.validator = some vd →
    ∀ v, readData d nm = some v → vd v = none

/-- validate changes neither the container, nor the field set, nor the
action. -/
theorem validateLoop_data :
    ∀ (fs : List (String × Field)) (f : Form) (anyE b : Bool) (f2 : Form),
      validateLoop f fs anyE = .ok (b, f2) →
      f2.data = f.data ∧ f2.fields = f.fields ∧ f2.action = f.action
  | [], f, anyE, b, f2, h => by
    simp only [validateLoop, Except.ok.injEq, Prod.mk.injEq] at h
    rw [← h.2]
    exact ⟨rfl, rfl, rfl⟩
  | (name, fld) :: rest, f, anyE, b, f2, h => by
    simp only [validateLoop] at h
    cases hg : findParts (splitPath name) f.data false none with
    | error e =>
      cases e with
      | gopanic p2 => rw [hg] at h; simp at h
      | fieldErr s =>
        rw [hg] at h
        simp only [Except.ok.injEq, Prod.mk.injEq] at h
        rw [← h.2]
        exact ⟨rfl, rfl, rfl⟩
    | ok pr =>
      obtain ⟨ov, d2⟩ := pr
      obtain ⟨hd2, _⟩ := findParts_read (splitPath name) f.data false ov d2 hg
      subst hd2
      rw [hg] at h
      simp only [] at h
      rw [form_eta] at h
      split at h
      · exact validateLoop_data rest f anyE b f2 h
      · split at h
        · exact validateLoop_data rest f anyE b f2 h
        · obtain ⟨x1, x2, x3⟩ := validateLoop_data rest _ true b f2 h
          exact ⟨x1, x2, x3⟩

/-- The defining property of validate: provided every declared field
resolves, it returns true exactly when the pass started clean and every
declared validator returns the nil slice on its field's current value
(a non-nil empty slice counts as a failure). -/
theorem validateLoop_spec :
    ∀ (fs : List (String × Field)) (f : Form) (anyE b : Bool) (f2 : Form),
      validateLoop f fs anyE = .ok (b, f2) →
      (∀ p, p ∈ fs → (readData f.data p.1).isSome = true) →
      (b = true ↔ (anyE = false ∧ allPass fs f.data))
  | [], f, anyE, b, f2, h, hres => by
    simp only [validateLoop, Except.ok.injEq, Prod.mk.injEq] at h
    have hb : b = !anyE := h.1.symm
    subst hb
    constructor
    · intro hb2
      refine ⟨by revert hb2; cases anyE <;> simp, ?_⟩
      intro nm fld hmem
      simp at hmem
    · rintro ⟨ha, _⟩
      subst ha
      rfl
  | (name, fld) :: rest, f, anyE, b, f2, h, hres => by
    obtain ⟨flabel, fhelp, fvalidator, fwidget⟩ := fld
    have hr := hres (name, ⟨flabel, fhelp, fvalidator, fwidget⟩) (List.mem_cons_self _ _)
    unfold readData at hr
    cases hg : findParts (splitPath name) f.data false none with
    | error e => rw [hg] at hr; simp at hr
    | ok pr =>
      obtain ⟨ov, d2⟩ := pr
      obtain ⟨hd2, hsome⟩ := findParts_read (splitPath name) f.data false ov d2 hg
      subst hd2
      cases ov with
      | none => simp at hsome
      | some v =>
        have hread : readData f.data name = some v := by
          unfold readData
          rw [hg]
        simp only [validateLoop] at h
        rw [hg] at h
        simp only [Option.getD] at h
        rw [form_eta] at h
        have hrest : ∀ p, p ∈ rest → (readData f.data p.1).isSome = true :=
          fun p hp => hres p (List.mem_cons_of_mem _ hp)
        cases fvalidator with
        | none =>
          have ih := validateLoop_spec rest f anyE b f2 h hrest
          rw [ih]
          constructor
          · rintro ⟨ha, hp⟩
            refine ⟨ha, ?_⟩
            intro nm fld2 hmem vd hvd v2 hv2
            rcases List.mem_cons.mp hmem with hc | hm2
            · cases hc
              cases hvd
            · exact hp nm fld2 hm2 vd hvd v2 hv2
          · rintro ⟨ha, hp⟩
            refine ⟨ha, ?_⟩
            intro nm fld2 hmem vd hvd v2 hv2
            exact hp nm fld2 (List.mem_cons_of_mem _ hmem) vd hvd v2 hv2
        | some vd =>
          have hge : ∀ vres, vd v = vres →
              (match vres with
                | none => validateLoop f rest anyE
                | some errs =>
                  validateLoop { f with errors := updateA f.errors name errs } rest
                    true) = .ok (b, f2) →
              (b = true ↔ (anyE = false ∧
                allPass ((name, ⟨flabel, fhelp, some vd, fwidget⟩) :: rest) f.data)) := by
            intro vres hvv h2
            cases vres with
            | none =>
              have ih := validateLoop_spec rest f anyE b f2 h2 hrest
              rw [ih]
              constructor
              · rintro ⟨ha, hp⟩
                refine ⟨ha, ?_⟩
                intro nm fld2 hmem vd2 hvd v2 hv2
                rcases List.mem_cons.mp hmem with hc | hm2
                · cases hc
                  cases hvd
                  rw [hread] at hv2
                  cases hv2
                  exact hvv
                · exact hp nm fld2 hm2 vd2 hvd v2 hv2
              · rintro ⟨ha, hp⟩
                refine ⟨ha, ?_⟩
                intro nm fld2 hmem vd2 hvd v2 hv2
                exact hp nm fld2 (List.mem_cons_of_mem _ hmem) vd2 hvd v2 hv2
            | some errs =>
              have ih := validateLoop_spec rest _ true b f2 h2 hrest
              constructor
              · intro hb
                rw [ih] at hb
                exact absurd hb.1 (by simp)
              · rintro ⟨ha, hp⟩
                exfalso
                have hnone := hp name ⟨flabel, fhelp, some vd, fwidget⟩
                  (List.mem_cons_self _ _) vd rfl v hread
                rw [hnone] at hvv
                cases hvv
          exact hge (vd v) rfl h

/-- A field whose validator returns a non-nil but empty error slice. -/
def c4validator : GoValidator := fun _ => some []

/-- A form with one field carrying c4validator over a resolvable
container. -/
def c4form : Form :=
  { fields := [("Name", ⟨"Your name", "", some c4validator, none⟩)]
    data := .vptr .tstruct (some (.vstruct [("Name", .vstr ("x"))]))
    errors := []
    action := "" }

/-- Claim C4, counterexample: a validator that returns a present but
empty error slice produces no error messages, yet Fill returns false —
the engine tests the returned slice against nil, not against emptiness,
so the claimed equivalence (true iff no validator produces error
messages) fails. -/
theorem c4_counterexample :
    (fill c4form []).toOption.map (fun pr => pr.1) = some false ∧
    (match fill c4form [] with
     | .ok (_, f2) => readField f2 ("Name")
     | .error e => .error e) = .ok (.vstr ("x")) ∧
    c4validator (.vstr ("x")) = some [] :=
  ⟨rfl, rfl, rfl⟩

/-- Claim C4 (corrected): provided every declared field path resolves
against the post-fill container, Fill returns true exactly when every
declared validator (where present) returns the absent (nil) error
slice on its field's post-fill value; a validator returning a present
empty slice counts as a rejection. -/
theorem c4_fill_true_iff_validators_nil (f : Form) (vals : List (String × List String))
    (b : Bool) (f2 : Form) (h : fill f vals = .ok (b, f2))
    (hres : ∀ p, p ∈ f.fields → (readData f2.data p.1).isSome = true) :
    (b = true ↔ allPass f.fields f2.data) := by
  unfold fill at h
  cases hl : fillLoop f vals with
  | error e => rw [hl] at h; cases h
  | ok fmid =>
    rw [hl] at h
    obtain ⟨hf, he, ha⟩ := fillLoop_frame vals f fmid hl
    unfold validate at h
    obtain ⟨hd, hff, _⟩ := validateLoop_data fmid.fields fmid false b f2 h
    have hres2 : ∀ p, p ∈ fmid.fields → (readData fmid.data p.1).isSome = true := by
      intro p hp
      rw [← hd]
      exact hres p (by rw [← hf]; exact hp)
    have hspec := validateLoop_spec fmid.fields fmid false b f2 h hres2
    rw [hf, ← hd] at hspec
    simpa using hspec

/-- A single Required field over a resolvable container, used to
instantiate the corrected C4 statement. -/
def c4wform : Form :=
  { fields := [("Name", ⟨"Your name", "", some (Required ("Req!")), none⟩)]
    data := .vptr .tstruct (some (.vstruct [("Name", .vstr (""))]))
    errors := []
    action := "" }

/-- Witness for c4_fill_true_iff_validators_nil: filling c4wform with a
non-empty Name returns true, and the instantiated equivalence holds at
the post-fill container. -/
theorem c4_fill_true_iff_validators_nil_witness :
    (true = true ↔
      allPass c4wform.fields (Val.vptr .tstruct (some (.vstruct [("Name", Val.vstr ("Foo"))])))) :=
  c4_fill_true_iff_validators_nil c4wform [("Name", ["Foo"])] true
    { c4wform with data := .vptr .tstruct (some (.vstruct [("Name", Val.vstr ("Foo"))])) }
    rfl
    (by intro p hp
        have hp2 : p = ("Name", ⟨"Your name", "", some (Required ("Req!")), none⟩) := by
          simpa [c4wform] using hp
        subst hp2
        rfl)

/-! ## Claim C7 -/

/-- The container after the Extra.ExtraField write: the Extra map gains
(or replaces) its ExtraField entry. -/
def c7after (flds m : List (String × Val)) (v : Val) : Val :=
  .vptr .tstruct (some (.vstruct
    (updateA flds ("Extra") (.vmap (updateA m ("ExtraField") v)))))

/-- Claim C7 (confirmed): on a pointer-to-struct container whose field
Extra holds a map, writing v at the dotted path Extra.ExtraField stores
v under the map key ExtraField (the accessor returns no value after a
map store, as the original returns the zero reflect.Value there), and
reading the same path back from the updated container returns exactly
the v that was written, leaving the container unchanged. The written
value is assumed not to be an interface box, since reading unwraps one
interface level. -/
theorem c7_dotted_write_read_roundtrip (flds m : List (String × Val)) (v : Val)
    (hx : lookupA flds ("Extra") = some (.vmap m)) (hni : isIface v = false) :
    findParts (splitPath ("Extra.ExtraField"))
        (.vptr .tstruct (some (.vstruct flds))) false (some v) =
      .ok (none, c7after flds m v) ∧
    findParts (splitPath ("Extra.ExtraField")) (c7after flds m v) false none =
      .ok (some v, c7after flds m v) ∧
    lookupA (updateA m ("ExtraField") v) ("ExtraField") = some v := by
  have hsplit : splitPath ("Extra.ExtraField") = [("Extra"), ("ExtraField")] := rfl
  rw [hsplit]
  refine ⟨?_, ?_, lookupA_updateA_self m ("ExtraField") v⟩
  · simp [findParts, unwrapChain, hx, c7after]
  · cases v <;>
      simp_all [findParts, unwrapChain, afterLoop, isIface, c7after,
        lookupA_updateA_self, updateA_lookup_self]

/-- Witness for c7_dotted_write_read_roundtrip: the concrete container
of the library test, a struct whose Extra field is an empty map,
written with the string Hey! and read back. -/
theorem c7_dotted_write_read_roundtrip_witness :
    findParts (splitPath ("Extra.ExtraField"))
        (.vptr .tstruct (some (.vstruct [("Extra", Val.vmap [])]))) false
        (some (Val.vstr ("Hey!"))) =
      .ok (none, c7after [("Extra", Val.vmap [])] [] (Val.vstr ("Hey!"))) ∧
    findParts (splitPath ("Extra.ExtraField"))
        (c7after [("Extra", Val.vmap [])] [] (Val.vstr ("Hey!"))) false none =
      .ok (some (Val.vstr ("Hey!")), c7after [("Extra", Val.vmap [])] [] (Val.vstr ("Hey!"))) ∧
    lookupA (updateA [] ("ExtraField") (Val.vstr ("Hey!"))) ("ExtraField") =
      some (Val.vstr ("Hey!")) :=
  c7_dotted_write_read_roundtrip [("Extra", Val.vmap [])] [] (Val.vstr ("Hey!")) rfl rfl

/-! ## Claim C9 -/

/-- Whether some declared field carries the file widget. -/
def hasFileWidget : List (String × Field) → Bool
  | [] => false
  | (_, fld) :: rest => (decide (fld.widget = some Widget.file)) || hasFileWidget rest

/-- The enctype attribute the render loop accumulates: the marker as
soon as any field carries the file widget, the incoming value
otherwise. -/
theorem renderLoop_enc :
    ∀ (fs : List (String × Field)) (d : Val) (errs : List (String × List String))
      (enc : String) (lst : List FieldRenderData) (encF : String) (dF : Val),
      renderLoop d errs fs enc = .ok (lst, encF, dF) →
      encF = (if hasFileWidget fs then multipartMarker else enc)
  | [], d, errs, enc, lst, encF, dF, h => by
    simp only [renderLoop, Except.ok.injEq, Prod.mk.injEq] at h
    simp [hasFileWidget, ← h.2.1]
  | (name, fld) :: rest, d, errs, enc, lst, encF, dF, h => by
    simp only [renderLoop] at h
    cases hg : findParts (splitPath name) d false none with
    | error e =>
      cases e with
      | gopanic p2 => rw [hg] at h; simp at h
      | fieldErr s =>
        rw [hg] at h
        simp only [] at h
        cases hr : renderLoop d errs rest
            (if fld.widget = some Widget.file then multipartMarker else enc) with
        | error e2 => rw [hr] at h; simp at h
        | ok tri =>
          obtain ⟨lst2, encF2, dF2⟩ := tri
          rw [hr] at h
          simp only [Except.ok.injEq, Prod.mk.injEq] at h
          have ih := renderLoop_enc rest d errs _ lst2 encF2 dF2 hr
          rw [← h.2.1, ih]
          by_cases hw : fld.widget = some Widget.file <;>
            by_cases hrest : hasFileWidget rest <;>
            simp [hasFileWidget, hw, hrest]
    | ok pr =>
      obtain ⟨ov, d2⟩ := pr
      rw [hg] at h
      simp only [] at h
      cases hr : renderLoop d2 errs rest
          (if fld.widget = some Widget.file then multipartMarker else enc) with
      | error e2 => rw [hr] at h; simp at h
      | ok tri =>
        obtain ⟨lst2, encF2, dF2⟩ := tri
        rw [hr] at h
        simp only [Except.ok.injEq, Prod.mk.injEq] at h
        have ih := renderLoop_enc rest d2 errs _ lst2 encF2 dF2 hr
        rw [← h.2.1, ih]
        by_cases hw : fld.widget = some Widget.file <;>
          by_cases hrest : hasFileWidget rest <;>
          simp [hasFileWidget, hw, hrest]

/-- Claim C9 (confirmed): the snapshot's enctype attribute is the
multipart marker exactly when some declared field's widget is the file
widget, and the empty string otherwise. -/
theorem c9_enctype_iff_file_widget (f : Form) (rd : RenderData) (f2 : Form)
    (h : renderData f = .ok (rd, f2)) :
    rd.encTypeAttr = (if hasFileWidget f.fields then multipartMarker else ("")) := by
  unfold renderData at h
  cases hr : renderLoop f.data f.errors f.fields ("") with
  | error e => rw [hr] at h; cases h
  | ok tri =>
    obtain ⟨lst, encF, dF⟩ := tri
    rw [hr] at h
    simp only [Except.ok.injEq, Prod.mk.injEq] at h
    rw [← h.1]
    exact renderLoop_enc f.fields f.data f.errors ("") lst encF dF hr

/-- A form whose single field carries the file widget. -/
def c9wform : Form :=
  { fields := [("File", ⟨"File!", "", none, some .file⟩)]
    data := .vptr .tstruct (some (.vstruct [("File", .vstr (""))]))
    errors := []
    action := "" }

/-- The snapshot and threaded form renderData produces on c9wform. -/
def c9rd : RenderData :=
  ((renderData c9wform).toOption.map Prod.fst).getD ⟨[], none, "", ""⟩

/-- The form component of renderData on c9wform. -/
def c9f2 : Form := ((renderData c9wform).toOption.map Prod.snd).getD c9wform

/-- Witness for c9_enctype_iff_file_widget at c9wform, whose field set
contains the file widget. -/
theorem c9_enctype_iff_file_widget_witness :
    c9rd.encTypeAttr = (if hasFileWidget c9wform.fields then multipartMarker else ("")) :=
  c9_enctype_iff_file_widget c9wform c9rd c9f2 rfl

/-! ## Claim C10 -/

/-- The render loop hands the container back unchanged: its only
accesses are reads. -/
theorem renderLoop_data :
    ∀ (fs : List (String × Field)) (d : Val) (errs : List (String × List String))
      (enc : String) (lst : List FieldRenderData) (encF : String) (dF : Val),
      renderLoop d errs fs enc = .ok (lst, encF, dF) → dF = d
  | [], d, errs, enc, lst, encF, dF, h => by
    simp only [renderLoop, Except.ok.injEq, Prod.mk.injEq] at h
    exact h.2.2.symm
  | (name, fld) :: rest, d, errs, enc, lst, encF, dF, h => by
    simp only [renderLoop] at h
    cases hg : findParts (splitPath name) d false none with
    | error e =>
      cases e with
      | gopanic p2 => rw [hg] at h; simp at h
      | fieldErr s =>
        rw [hg] at h
        simp only [] at h
        cases hr : renderLoop d errs rest
            (if fld.widget = some Widget.file then multipartMarker else enc) with
        | error e2 => rw [hr] at h; simp at h
        | ok tri =>
          obtain ⟨lst2, encF2, dF2⟩ := tri
          rw [hr] at h
          simp only [Except.ok.injEq, Prod.mk.injEq] at h
          rw [← h.2.2]
          exact renderLoop_data rest d errs _ lst2 encF2 dF2 hr
    | ok pr =>
      obtain ⟨ov, d2⟩ := pr
      obtain ⟨hd2, _⟩ := findParts_read (splitPath name) d false ov d2 hg
      rw [hg] at h
      simp only [] at h
      cases hr : renderLoop d2 errs rest
          (if fld.widget = some Widget.file then multipartMarker else enc) with
      | error e2 => rw [hr] at h; simp at h
      | ok tri =>
        obtain ⟨lst2, encF2, dF2⟩ := tri
        rw [hr] at h
        simp only [Except.ok.injEq, Prod.mk.injEq] at h
        rw [← h.2.2]
        rw [renderLoop_data rest d2 errs _ lst2 encF2 dF2 hr]
        exact hd2

/-- Claim C10 (confirmed): RenderData is read-only on the form — the
form it leaves behind (field set, error map, container, action) is the
one it was given; the snapshot is computed purely from reads. -/
theorem c10_renderdata_readonly (f : Form) (rd : RenderData) (f2 : Form)
    (h : renderData f = .ok (rd, f2)) : f2 = f := by
  unfold renderData at h
  cases hr : renderLoop f.data f.errors f.fields ("") with
  | error e => rw [hr] at h; cases h
  | ok tri =>
    obtain ⟨lst, encF, dF⟩ := tri
    rw [hr] at h
    simp only [Except.ok.injEq, Prod.mk.injEq] at h
    have hd := renderLoop_data f.fields f.data f.errors ("") lst encF dF hr
    rw [← h.2, hd]

/-- A small form with a Required field and a recorded error, its value
resolvable, used to instantiate the C10 statement. -/
def c10wform : Form :=
  { fields := [("Name", ⟨"Your name", "Your full name", some (Required ("Req!")), none⟩)]
    data := .vptr .tstruct (some (.vstruct [("Name", .vstr ("Foo"))]))
    errors := [("Name", ["Req!"]), ("", ["global"])]
    action := "targetURL" }

/-- The snapshot renderData produces on c10wform. -/
def c10rd : RenderData :=
  ((renderData c10wform).toOption.map Prod.fst).getD ⟨[], none, "", ""⟩

/-- The form component of renderData on c10wform. -/
def c10f2 : Form := ((renderData c10wform).toOption.map Prod.snd).getD c10wform

/-- Witness for c10_renderdata_readonly at c10wform. -/
theorem c10_renderdata_readonly_witness : c10f2 = c10wform :=
  c10_renderdata_readonly c10wform c10rd c10f2 rfl

/-! ## Claim C8 -/

/-- The Name field settings of the render-order scenario. -/
def f8fieldName : Field := ⟨"Your name", "Your full name", none, none⟩

/-- The Age field settings of the render-order scenario. -/
def f8fieldAge : Field := ⟨"Your age", "Years since your birth.", none, none⟩

/-- The shared container of the render-order scenario. -/
def f8data : Val := .vptr .tstruct (some (.vstruct [("Name", .vstr ("")), ("Age", .vint 14)]))

/-- The form with its two fields listed in one iteration order. -/
def f8a : Form :=
  { fields := [("Name", f8fieldName), ("Age", f8fieldAge)]
    data := f8data, errors := [], action := "" }

/-- The same form with its two fields listed in the other iteration
order; as Go maps the two field sets are the same map. -/
def f8b : Form :=
  { fields := [("Age", f8fieldAge), ("Name", f8fieldName)]
    data := f8data, errors := [], action := "" }

/-- Claim C8, behavior of the code at the failing input: the field sets
of f8a and f8b are permutations of one another — the same Go map, whose
iteration order the runtime randomizes per traversal — and the rest of
the two forms is identical, yet the snapshots they render differ (the
fields come out in different orders). Two RenderData calls on one form
may therefore disagree, and the fixed order the test file asserts is
not guaranteed. -/
theorem c8_render_order_not_deterministic :
    f8a.fields.Perm f8b.fields ∧
    f8a.data = f8b.data ∧ f8a.errors = f8b.errors ∧ f8a.action = f8b.action ∧
    (renderData f8a).toOption.map Prod.fst ≠ (renderData f8b).toOption.map Prod.fst := by
  refine ⟨List.Perm.swap _ _ _, rfl, rfl, rfl, ?_⟩
  decide

end GoForm
